import Mathlib

/-!
Shallow embedding of the pastebin-clone storage layer
(`src/unnamed/part_001`, the three-backend module, and its two-backend
duplicate `src/lib/storage.ts`).

Modelling conventions:
* JavaScript `number` timestamps (ms since epoch) are `Int`.
* `expiresAt: number | null` is `Option Int`; JS truthiness of
  `paste.expiresAt` is false for both `null` and `0`.
* A JS `Map` and the managed data directory are association lists
  `List (String × β)`; directory entries / map keys are pairwise distinct
  in any reachable state, so `kvSet` replaces the first binding and
  `kvRemove` drops every binding with the key.
* A stored file's content is `Option Paste`: `some p` when `JSON.parse`
  succeeds and recovers the record (serialization is the identity on
  records), `none` for an unparseable/corrupt file.
* The Upstash Redis service is a key-value map whose entries carry an
  absolute expiration deadline (`SET key v EX ttl` at time `now` stores
  deadline `now + ttl*1000`); a key is live strictly before its deadline.
-/

namespace Pastebin

/-- The sole entity: `interface Paste` from the source. -/
structure Paste where
  id : String
  title : String
  content : String
  language : String
  createdAt : Int
  expiresAt : Option Int
deriving DecidableEq, Repr

/-! ### Association-list primitives (JS `Map` / the data directory) -/

/-- `Map.get` / reading the file named `k`: first binding wins. -/
def kvLookup {β : Type} : List (String × β) → String → Option β
  | [], _ => none
  | e :: t, k => if e.1 == k then some e.2 else kvLookup t k

/-- `Map.set` / `writeFile`: replace the binding in place, else append. -/
def kvSet {β : Type} : List (String × β) → String → β → List (String × β)
  | [], k, v => [(k, v)]
  | e :: t, k, v => if e.1 == k then (k, v) :: t else e :: kvSet t k v

/-- `Map.delete` / `unlink`: drop the binding for `k`. -/
def kvRemove {β : Type} (l : List (String × β)) (k : String) : List (String × β) :=
  l.filter (fun e => !(e.1 == k))

/-- `Map.has` / file existence. -/
def kvHas {β : Type} (l : List (String × β)) (k : String) : Bool :=
  l.any (fun e => e.1 == k)

theorem kvLookup_kvSet_self {β : Type} (l : List (String × β)) (k : String) (v : β) :
    kvLookup (kvSet l k v) k = some v := by
  induction l with
  | nil => simp [kvSet, kvLookup]
  | cons e t ih =>
    by_cases h : e.1 == k
    · simp [kvSet, h, kvLookup]
    · simp [kvSet, h, kvLookup, ih]

theorem kvLookup_kvRemove_self {β : Type} (l : List (String × β)) (k : String) :
    kvLookup (kvRemove l k) k = none := by
  induction l with
  | nil => simp [kvRemove, kvLookup]
  | cons e t ih =>
    by_cases h : e.1 == k
    · simpa [kvRemove, h] using ih
    · simpa [kvRemove, h, kvLookup] using ih

theorem kvHas_kvRemove_self {β : Type} (l : List (String × β)) (k : String) :
    kvHas (kvRemove l k) k = false := by
  induction l with
  | nil => simp [kvRemove, kvHas]
  | cons e t ih =>
    by_cases h : e.1 == k
    · simp only [kvRemove] at ih ⊢
      simp [h, ih]
    · simp only [kvRemove] at ih ⊢
      simp only [kvHas] at ih ⊢
      simp [h, ih]

theorem mem_kvSet_self {β : Type} (l : List (String × β)) (k : String) (v : β) :
    (k, v) ∈ kvSet l k v := by
  induction l with
  | nil => simp [kvSet]
  | cons e t ih =>
    by_cases h : e.1 == k
    · simp [kvSet, h]
    · simp only [kvSet, h]
      exact List.mem_cons_of_mem _ ih

/-! ### Expiry predicates

`memGet`/`fileGet` test `paste.expiresAt && paste.expiresAt < Date.now()`;
`getAllPastes` keeps `!paste.expiresAt || paste.expiresAt > now`.
JS truthiness makes `expiresAt = 0` falsy in both tests. -/

/-- The read-path expiry test: truthy `expiresAt` strictly below `now`. -/
def isExpired (e : Option Int) (now : Int) : Bool :=
  match e with
  | none => false
  | some v => v != 0 && decide (v < now)

/-- The listing-path keep test: falsy `expiresAt`, or strictly above `now`. -/
def keepAlive (e : Option Int) (now : Int) : Bool :=
  match e with
  | none => true
  | some v => v == 0 || decide (v > now)

/-! ### In-memory backend -/

/-- The process-wide `memStore` map. -/
abbrev MemStore : Type := List (String × Paste)

/-- `memGet`: look up; lazily evict and report `null` when expired. -/
def memGet (s : MemStore) (id : String) (now : Int) : Option Paste × MemStore :=
  match kvLookup s id with
  | none => (none, s)
  | some p =>
    if isExpired p.expiresAt now then (none, kvRemove s id) else (some p, s)

/-- `memSet`: unconditional insert/overwrite keyed by the raw id. -/
def memSet (s : MemStore) (p : Paste) : MemStore :=
  kvSet s p.id p

/-- `memStore.delete(id)`: remove, reporting whether a binding existed. -/
def memDelete (s : MemStore) (id : String) : Bool × MemStore :=
  (kvHas s id, kvRemove s id)

/-- The sort relation of `.sort((a, b) => b.createdAt - a.createdAt)`:
`createdAt` descending, ties allowed. -/
def pasteOrd (a b : Paste) : Prop :=
  b.createdAt ≤ a.createdAt

instance : DecidableRel pasteOrd := fun a b => Int.decLe b.createdAt a.createdAt

instance : IsTotal Paste pasteOrd :=
  ⟨fun a b => le_total b.createdAt a.createdAt⟩

instance : IsTrans Paste pasteOrd :=
  ⟨fun _ _ _ h₁ h₂ => le_trans h₂ h₁⟩

/-- The memory branch of `getAllPastes`: keep live records, sort by
`createdAt` descending (a stable comparator sort, modelled by the stable
`insertionSort`). -/
def memList (s : MemStore) (now : Int) : List Paste :=
  List.insertionSort pasteOrd
    ((s.map Prod.snd).filter (fun p => keepAlive p.expiresAt now))

/-! ### Identifier sanitizer and file backend -/

/-- The character class kept by `id.replace(/[^a-zA-Z0-9_-]/g, "")`. -/
def isAllowedChar (c : Char) : Bool :=
  ('a' ≤ c && c ≤ 'z') || ('A' ≤ c && c ≤ 'Z') || ('0' ≤ c && c ≤ '9')
    || c == '_' || c == '-'

/-- `const safeId = id.replace(/[^a-zA-Z0-9_-]/g, "")`. -/
def sanitizeId (s : String) : String :=
  ⟨s.data.filter isAllowedChar⟩

/-- `getPasteFilePath`, as a name relative to the managed `DATA_DIR`. -/
def getPasteFilePath (id : String) : String :=
  sanitizeId id ++ ".json"

/-- The managed data directory: file name ↦ parsed content
(`none` = unparseable file). -/
abbrev FS : Type := List (String × Option Paste)

/-- `fileGet`: read and parse the file at the sanitized path; a missing or
unparseable file is `null`; an expired record is unlinked and `null`. -/
def fileGet (fs : FS) (id : String) (now : Int) : Option Paste × FS :=
  match kvLookup fs (getPasteFilePath id) with
  | none => (none, fs)
  | some none => (none, fs)
  | some (some p) =>
    if isExpired p.expiresAt now then
      (none, kvRemove fs (getPasteFilePath id))
    else (some p, fs)

/-- `fileSet`: write the serialized record at the sanitized path. -/
def fileSet (fs : FS) (p : Paste) : FS :=
  kvSet fs (getPasteFilePath p.id) (some p)

/-- The file branch of `deletePaste`: `unlink` succeeds (true) exactly when
the file exists; a missing file throws, caught to `false`. -/
def fileDelete (fs : FS) (id : String) : Bool × FS :=
  (kvHas fs (getPasteFilePath id), kvRemove fs (getPasteFilePath id))

/-- The file branch of `getAllPastes`: one pass over the `readdir` snapshot
(directory entries are pairwise distinct, so reading each entry once along
the scan is the loop of the source): non-`.json` names are ignored,
unparseable files are skipped but kept on disk, live records are collected,
expired records are unlinked. Returns collected records and resulting
directory. -/
def listScan : FS → Int → List Paste × FS
  | [], _ => ([], [])
  | e :: t, now =>
    let r := listScan t now
    if e.1.endsWith ".json" then
      match e.2 with
      | some p =>
        if keepAlive p.expiresAt now then (p :: r.1, e :: r.2) else (r.1, r.2)
      | none => (r.1, e :: r.2)
    else (r.1, e :: r.2)

/-- `getAllPastes` (file mode): scan, then sort by `createdAt` descending. -/
def fileList (fs : FS) (now : Int) : List Paste × FS :=
  ((listScan fs now).1.insertionSort pasteOrd, (listScan fs now).2)

/-- Which directory entries survive a `getAllPastes` scan: everything except
a parseable `.json` record that is expired. -/
def fileKeep (now : Int) (e : String × Option Paste) : Bool :=
  if e.1.endsWith ".json" then
    match e.2 with
    | some p => keepAlive p.expiresAt now
    | none => true
  else true

/-- Which records a `getAllPastes` scan collects from a directory entry. -/
def fileCollect (now : Int) (e : String × Option Paste) : Option Paste :=
  if e.1.endsWith ".json" then
    match e.2 with
    | some p => if keepAlive p.expiresAt now then some p else none
    | none => none
  else none

theorem listScan_fst (fs : FS) (now : Int) :
    (listScan fs now).1 = fs.filterMap (fileCollect now) := by
  induction fs with
  | nil => simp [listScan]
  | cons e t ih =>
    by_cases hj : e.1.endsWith ".json"
    · cases he : e.2 with
      | some p =>
        by_cases hk : keepAlive p.expiresAt now = true
        · simp [listScan, hj, he, hk, List.filterMap_cons, fileCollect, ih]
        · simp at hk
          simp [listScan, hj, he, hk, List.filterMap_cons, fileCollect, ih]
      | none => simp [listScan, hj, he, List.filterMap_cons, fileCollect, ih]
    · simp [listScan, hj, List.filterMap_cons, fileCollect, ih]

theorem listScan_snd (fs : FS) (now : Int) :
    (listScan fs now).2 = fs.filter (fileKeep now) := by
  induction fs with
  | nil => simp [listScan]
  | cons e t ih =>
    by_cases hj : e.1.endsWith ".json"
    · cases he : e.2 with
      | some p =>
        by_cases hk : keepAlive p.expiresAt now = true
        · simp [listScan, hj, he, hk, List.filter_cons, fileKeep, ih]
        · simp at hk
          simp [listScan, hj, he, hk, List.filter_cons, fileKeep, ih]
      | none => simp [listScan, hj, he, List.filter_cons, fileKeep, ih]
    · simp [listScan, hj, List.filter_cons, fileKeep, ih]

/-! ### Upstash Redis backend -/

/-- A stored Redis value together with its absolute expiration deadline
(`none` = no TTL was attached). -/
structure RedisEntry where
  value : Paste
  deadline : Option Int
deriving DecidableEq, Repr

/-- The remote service keyspace. -/
abbrev RedisStore : Type := List (String × RedisEntry)

/-- The namespaced key `` `paste:${id}` ``. -/
def redisKey (id : String) : String :=
  "paste:" ++ id

/-- Service-side liveness: a key with a TTL expires at its deadline. -/
def redisLive (e : RedisEntry) (now : Int) : Bool :=
  match e.deadline with
  | none => true
  | some d => decide (now < d)

/-- `redisGet`: single key lookup; the service hides expired keys. -/
def redisGet (st : RedisStore) (id : String) (now : Int) : Option Paste :=
  match kvLookup st (redisKey id) with
  | none => none
  | some e => if redisLive e now then some e.value else none

/-- `Math.ceil(a / b)` on integers, for positive `b`. -/
def ceilDiv (a b : Int) : Int :=
  -((-a).fdiv b)

/-- The TTL (in seconds) that `redisSet` attaches, if any: truthy
`expiresAt` with `ttlSeconds = Math.ceil((expiresAt - now)/1000) > 0`
yields `{ ex: ttlSeconds }`; every other path falls through to a plain
`SET` without TTL. -/
def redisSetTTL (p : Paste) (now : Int) : Option Int :=
  match p.expiresAt with
  | none => none
  | some e =>
    if e == 0 then none
    else if ceilDiv (e - now) 1000 > 0 then some (ceilDiv (e - now) 1000)
    else none

/-- `redisSet`: write the record, attaching the TTL when one is computed. -/
def redisSet (st : RedisStore) (p : Paste) (now : Int) : RedisStore :=
  match redisSetTTL p now with
  | some ttl => kvSet st (redisKey p.id) ⟨p, some (now + ttl * 1000)⟩
  | none => kvSet st (redisKey p.id) ⟨p, none⟩

/-- `redis.del`: returns 1 only for a live key; the entry is gone after. -/
def redisDel (st : RedisStore) (id : String) (now : Int) : Bool × RedisStore :=
  match kvLookup st (redisKey id) with
  | none => (false, st)
  | some e => (redisLive e now, kvRemove st (redisKey id))

/-! ### Storage mode detection and facade -/

/-- The three backend kinds. -/
inductive StorageMode where
  | redis
  | file
  | memory
deriving DecidableEq, Repr

/-- The configuration surface read by `getStorageMode`: the override
variable and the two Upstash credential variables, each possibly unset. -/
structure Env where
  storageMode : Option String
  redisUrl : Option String
  redisToken : Option String

/-- JS truthiness of an environment variable: set and non-empty. -/
def envTruthy (o : Option String) : Bool :=
  match o with
  | none => false
  | some s => !(s == "")

/-- The fall-through of `getStorageMode`: credentials, else `file`. -/
def storageFallback (env : Env) : StorageMode :=
  if envTruthy env.redisUrl && envTruthy env.redisToken then .redis
  else .file

/-- `getStorageMode`: the `STORAGE_MODE` override when it names one of the
three recognized kinds (an unset or empty variable is falsy and is not in
the list), else capability detection. -/
def getStorageMode (env : Env) : StorageMode :=
  match env.storageMode with
  | some f =>
    if f == "redis" then .redis
    else if f == "file" then .file
    else if f == "memory" then .memory
    else storageFallback env
  | none => storageFallback env

/-- The whole world a facade call can touch: the three backend states. -/
structure StorageState where
  mem : MemStore
  fs : FS
  rds : RedisStore
deriving DecidableEq, Repr

/-- `getPaste`: dispatch on the active mode. -/
def getPaste (mode : StorageMode) (st : StorageState) (id : String)
    (now : Int) : Option Paste × StorageState :=
  match mode with
  | .redis => (redisGet st.rds id now, st)
  | .file =>
    let r := fileGet st.fs id now
    (r.1, { st with fs := r.2 })
  | .memory =>
    let r := memGet st.mem id now
    (r.1, { st with mem := r.2 })

/-- `savePaste`: dispatch on the active mode. -/
def savePaste (mode : StorageMode) (st : StorageState) (p : Paste)
    (now : Int) : StorageState :=
  match mode with
  | .redis => { st with rds := redisSet st.rds p now }
  | .file => { st with fs := fileSet st.fs p }
  | .memory => { st with mem := memSet st.mem p }

/-- `deletePaste`: dispatch on the active mode. -/
def deletePaste (mode : StorageMode) (st : StorageState) (id : String)
    (now : Int) : Bool × StorageState :=
  match mode with
  | .redis =>
    let r := redisDel st.rds id now
    (r.1, { st with rds := r.2 })
  | .file =>
    let r := fileDelete st.fs id
    (r.1, { st with fs := r.2 })
  | .memory =>
    let r := memDelete st.mem id
    (r.1, { st with mem := r.2 })

/-- `getAllPastes`: memory and file listings; Redis returns `[]`. -/
def getAllPastes (mode : StorageMode) (st : StorageState) (now : Int) :
    List Paste × StorageState :=
  match mode with
  | .redis => ([], st)
  | .file =>
    let r := fileList st.fs now
    (r.1, { st with fs := r.2 })
  | .memory => (memList st.mem now, st)

/-- Whether a backend currently holds a record for `id`: the key the
backend's delete operation acts on (raw id for memory, sanitized filename
for file, live namespaced key for Redis). -/
def hasRecord (mode : StorageMode) (st : StorageState) (id : String)
    (now : Int) : Bool :=
  match mode with
  | .redis =>
    match kvLookup st.rds (redisKey id) with
    | none => false
    | some e => redisLive e now
  | .file => kvHas st.fs (getPasteFilePath id)
  | .memory => kvHas st.mem id

/-! ### Helper lemmas -/

theorem isExpired_eq_false_of_le {exp : Option Int} {now : Int}
    (h : ∀ e, exp = some e → now ≤ e) : isExpired exp now = false := by
  cases hp : exp with
  | none => rfl
  | some e =>
    have := h e hp
    simp [isExpired]
    omega

theorem ceilDiv_nonpos {a : Int} (ha : a ≤ 0) : ceilDiv a 1000 ≤ 0 := by
  have h1 : 0 ≤ (-a).fdiv 1000 :=
    Int.fdiv_nonneg (by omega) (by norm_num : (0:Int) ≤ 1000)
  simp only [ceilDiv]
  omega

theorem redisSetTTL_pos (p : Paste) (now : Int) {ttl : Int}
    (h : redisSetTTL p now = some ttl) : 0 < ttl := by
  unfold redisSetTTL at h
  cases hp : p.expiresAt with
  | none => rw [hp] at h; exact absurd h (by simp)
  | some e =>
    rw [hp] at h
    simp only [] at h
    split_ifs at h with h0 hc
    all_goals simp_all

/-! ### Claim C4: backend selection -/

/-- C4: the backend selector is a deterministic function of the
configuration. If `STORAGE_MODE` names one of the three recognized kinds it
wins; otherwise, if both Upstash credentials are present (set, non-empty),
the Redis backend is used; otherwise the file backend is used — the memory
backend is never the default. -/
theorem C4_backend_selection (env : Env) :
    (env.storageMode = some "redis" → getStorageMode env = .redis) ∧
    (env.storageMode = some "file" → getStorageMode env = .file) ∧
    (env.storageMode = some "memory" → getStorageMode env = .memory) ∧
    ((∀ s, env.storageMode = some s →
        s ≠ "redis" ∧ s ≠ "file" ∧ s ≠ "memory") →
      (envTruthy env.redisUrl = true ∧ envTruthy env.redisToken = true →
        getStorageMode env = .redis) ∧
      ((envTruthy env.redisUrl = false ∨ envTruthy env.redisToken = false) →
        getStorageMode env = .file) ∧
      getStorageMode env ≠ .memory) := by
  refine ⟨?_, ?_, ?_, ?_⟩
  · intro h
    simp [getStorageMode, h]
  · intro h
    simp [getStorageMode, h]
  · intro h
    simp [getStorageMode, h]
  · intro hno
    have hfb : (envTruthy env.redisUrl = true ∧ envTruthy env.redisToken = true →
          storageFallback env = .redis) ∧
        ((envTruthy env.redisUrl = false ∨ envTruthy env.redisToken = false) →
          storageFallback env = .file) ∧
        storageFallback env ≠ .memory := by
      unfold storageFallback
      refine ⟨?_, ?_, ?_⟩
      · rintro ⟨h1, h2⟩
        simp [h1, h2]
      · rintro (h1 | h1) <;> simp [h1]
      · split <;> simp
    have hmode : getStorageMode env = storageFallback env := by
      cases hm : env.storageMode with
      | none => simp [getStorageMode, hm]
      | some s =>
        obtain ⟨h1, h2, h3⟩ := hno s hm
        simp [getStorageMode, hm, h1, h2, h3]
    rw [hmode]
    exact hfb

/-- Witness for C4 at concrete configurations: the override wins, the
credentials imply Redis, and the bare default is the file backend. -/
theorem C4_backend_selection_witness :
    getStorageMode ⟨some "memory", some "u", some "t"⟩ = .memory ∧
    getStorageMode ⟨none, some "u", some "t"⟩ = .redis ∧
    getStorageMode ⟨none, none, none⟩ = .file :=
  ⟨(C4_backend_selection ⟨some "memory", some "u", some "t"⟩).2.2.1 rfl,
   ((C4_backend_selection ⟨none, some "u", some "t"⟩).2.2.2
      (fun _ h => nomatch h)).1 ⟨rfl, rfl⟩,
   ((C4_backend_selection ⟨none, none, none⟩).2.2.2
      (fun _ h => nomatch h)).2.1 (Or.inl rfl)⟩

/-! ### Claim C5: remote set TTL -/

/-- C5: for a paste with `expiresAt` present, `redisSet` computes the
remaining seconds `ceil((expiresAt - now)/1000)`; a positive value is
attached as the write's TTL, a non-positive value results in a plain write
with no TTL; with `expiresAt` absent the write carries no TTL. The written
entry holds the record and the deadline implied by the attached TTL.
(`0 ≤ now` reflects that `Date.now()` is non-negative.) -/
theorem C5_remote_set_ttl (p : Paste) (now : Int) (hnow : 0 ≤ now) :
    (p.expiresAt = none → redisSetTTL p now = none) ∧
    (∀ e, p.expiresAt = some e →
      (0 < ceilDiv (e - now) 1000 →
        redisSetTTL p now = some (ceilDiv (e - now) 1000)) ∧
      (ceilDiv (e - now) 1000 ≤ 0 → redisSetTTL p now = none)) ∧
    (∀ st : RedisStore, kvLookup (redisSet st p now) (redisKey p.id) =
      some ⟨p, (redisSetTTL p now).map (fun ttl => now + ttl * 1000)⟩) := by
  refine ⟨?_, ?_, ?_⟩
  · intro h
    simp [redisSetTTL, h]
  · intro e he
    by_cases h0 : e = 0
    · subst h0
      have hle : ceilDiv (0 - now) 1000 ≤ 0 := ceilDiv_nonpos (by omega)
      constructor
      · intro hpos
        omega
      · intro _
        simp [redisSetTTL, he]
    · constructor
      · intro hpos
        simp [redisSetTTL, he, h0, hpos]
      · intro hle
        have : ¬ (0 < ceilDiv (e - now) 1000) := by omega
        simp [redisSetTTL, he, h0, this]
  · intro st
    unfold redisSet
    cases ht : redisSetTTL p now with
    | none => simp [kvLookup_kvSet_self]
    | some ttl => simp [kvLookup_kvSet_self]

/-- Witness for C5: at `now = 0`, a paste expiring at 1500 ms is written
with a 2-second TTL, and a paste with no expiry is written without TTL. -/
theorem C5_remote_set_ttl_witness :
    redisSetTTL ⟨"a", "t", "c", "txt", 0, some 1500⟩ 0 = some 2 ∧
    redisSetTTL ⟨"b", "t", "c", "txt", 0, none⟩ 0 = none := by
  constructor
  · have h := ((C5_remote_set_ttl ⟨"a", "t", "c", "txt", 0, some 1500⟩ 0
      (by norm_num)).2.1 1500 rfl).1 (by decide)
    rw [h]
    decide
  · exact (C5_remote_set_ttl ⟨"b", "t", "c", "txt", 0, none⟩ 0
      (by norm_num)).1 rfl

/-! ### Claim C3: round-trip -/

/-- C3: for every backend, `savePaste p` immediately followed by
`getPaste p.id` returns a record equal to `p` in all six fields, provided
`p`'s expiry has not passed at read time. -/
theorem C3_roundtrip (mode : StorageMode) (st : StorageState) (p : Paste)
    (now : Int) (h : ∀ e, p.expiresAt = some e → now ≤ e) :
    (getPaste mode (savePaste mode st p now) p.id now).1 = some p := by
  cases mode with
  | memory =>
    simp only [getPaste, savePaste, memGet, memSet]
    rw [kvLookup_kvSet_self]
    simp [isExpired_eq_false_of_le h]
  | file =>
    simp only [getPaste, savePaste, fileGet, fileSet]
    rw [kvLookup_kvSet_self]
    simp [isExpired_eq_false_of_le h]
  | redis =>
    simp only [getPaste, savePaste, redisGet, redisSet]
    cases ht : redisSetTTL p now with
    | none =>
      rw [kvLookup_kvSet_self]
      simp [redisLive]
    | some ttl =>
      rw [kvLookup_kvSet_self]
      have hpos : 0 < ttl := redisSetTTL_pos p now ht
      have : now < now + ttl * 1000 := by nlinarith
      simp [redisLive, this]

/-- The record used to witness C3. -/
def c3Paste : Paste := ⟨"abc", "title", "hello", "txt", 1, some 10⟩

/-- Witness for C3: a concrete save/get round-trip on the memory backend,
read before the expiry. -/
theorem C3_roundtrip_witness :
    (getPaste .memory (savePaste .memory ⟨[], [], []⟩ c3Paste 4)
      c3Paste.id 4).1 = some c3Paste :=
  C3_roundtrip .memory ⟨[], [], []⟩ c3Paste 4
    (fun e he => by cases he; decide)

/-! ### Claim C8: idempotent delete -/

/-- C8: on any backend currently holding a record for `id`, deleting twice
returns `true` then `false`, and no record exists for `id` after either
call. -/
theorem C8_idempotent_delete (mode : StorageMode) (st : StorageState)
    (id : String) (now : Int) (h : hasRecord mode st id now = true) :
    (deletePaste mode st id now).1 = true ∧
    (deletePaste mode (deletePaste mode st id now).2 id now).1 = false ∧
    hasRecord mode (deletePaste mode st id now).2 id now = false ∧
    hasRecord mode
      (deletePaste mode (deletePaste mode st id now).2 id now).2 id now
      = false := by
  cases mode with
  | memory =>
    simp only [hasRecord] at h
    simp [deletePaste, memDelete, hasRecord, h, kvHas_kvRemove_self]
  | file =>
    simp only [hasRecord] at h
    simp [deletePaste, fileDelete, hasRecord, h, kvHas_kvRemove_self]
  | redis =>
    simp only [hasRecord] at h
    cases hl : kvLookup st.rds (redisKey id) with
    | none => rw [hl] at h; exact absurd h (by simp)
    | some e =>
      rw [hl] at h
      have h' : redisLive e now = true := h
      simp [deletePaste, redisDel, hasRecord, hl, h',
        kvLookup_kvRemove_self]

/-- The record used to witness C8. -/
def c8Paste : Paste := ⟨"abc", "title", "hello", "txt", 1, none⟩

/-- Witness for C8: double delete on a concrete one-record memory store. -/
theorem C8_idempotent_delete_witness :
    (deletePaste .memory ⟨[("abc", c8Paste)], [], []⟩ "abc" 0).1 = true ∧
    (deletePaste .memory
      (deletePaste .memory ⟨[("abc", c8Paste)], [], []⟩ "abc" 0).2
      "abc" 0).1 = false :=
  ⟨(C8_idempotent_delete .memory ⟨[("abc", c8Paste)], [], []⟩ "abc" 0
      (by decide)).1,
   (C8_idempotent_delete .memory ⟨[("abc", c8Paste)], [], []⟩ "abc" 0
      (by decide)).2.1⟩

/-! ### Claim C9: expiresAt = 0 is never-expiring -/

/-- C9 (implicit): a stored paste with `expiresAt = 0` is treated as
never-expiring by every operation, because the expiry tests check JS
truthiness of `expiresAt`: the memory and file reads return it at any
time, the listings keep it at any time, and the Redis write carries no
TTL. -/
theorem C9_zero_expiry (p : Paste) (now : Int) (s : MemStore) (fs : FS)
    (st : RedisStore) (h : p.expiresAt = some 0) :
    (memGet (memSet s p) p.id now).1 = some p ∧
    (fileGet (fileSet fs p) p.id now).1 = some p ∧
    keepAlive p.expiresAt now = true ∧
    p ∈ memList (memSet s p) now ∧
    redisSetTTL p now = none ∧
    kvLookup (redisSet st p now) (redisKey p.id) =
      some ⟨p, none⟩ := by
  have hexp : isExpired p.expiresAt now = false := by
    simp [isExpired, h]
  have hkeep : keepAlive p.expiresAt now = true := by
    simp [keepAlive, h]
  have httl : redisSetTTL p now = none := by
    simp [redisSetTTL, h]
  refine ⟨?_, ?_, hkeep, ?_, httl, ?_⟩
  · simp only [memGet, memSet]
    rw [kvLookup_kvSet_self]
    simp [hexp]
  · simp only [fileGet, fileSet]
    rw [kvLookup_kvSet_self]
    simp [hexp]
  · have hm : p ∈ (kvSet s p.id p).map Prod.snd :=
      List.mem_map_of_mem Prod.snd (mem_kvSet_self s p.id p)
    have hf : p ∈ ((kvSet s p.id p).map Prod.snd).filter
        (fun q => keepAlive q.expiresAt now) :=
      List.mem_filter.mpr ⟨hm, hkeep⟩
    simpa [memList, memSet, List.mem_insertionSort] using hf
  · simp only [redisSet, httl]
    exact kvLookup_kvSet_self st (redisKey p.id) ⟨p, none⟩

/-- The record used to witness C9. -/
def c9Paste : Paste := ⟨"zero", "title", "hello", "txt", 1, some 0⟩

/-- Witness for C9: the `expiresAt = 0` record survives a memory-backend
read at an arbitrarily late time. -/
theorem C9_zero_expiry_witness :
    (memGet (memSet [] c9Paste) c9Paste.id 999999999999).1 = some c9Paste :=
  (C9_zero_expiry c9Paste 999999999999 [] [] [] rfl).1

/-! ### Claim C10: identifier aliasing under the file backend -/

/-- C10 (implicit): any two raw ids with the same sanitized form denote
the same stored record under the file backend (read, write, and delete
all derive the file name through `getPasteFilePath`), while the memory
backend keys on the raw id and distinguishes such ids. -/
theorem C10_sanitized_aliasing :
    (∀ a b : String, sanitizeId a = sanitizeId b →
      getPasteFilePath a = getPasteFilePath b ∧
      (∀ (fs : FS) (now : Int), fileGet fs a now = fileGet fs b now) ∧
      (∀ fs : FS, fileDelete fs a = fileDelete fs b)) ∧
    (∃ (s : MemStore) (a b : String), sanitizeId a = sanitizeId b ∧
      (memGet s a 0).1 ≠ (memGet s b 0).1) := by
  constructor
  · intro a b hab
    have hp : getPasteFilePath a = getPasteFilePath b := by
      simp [getPasteFilePath, hab]
    exact ⟨hp, fun fs now => by simp [fileGet, hp],
      fun fs => by simp [fileDelete, hp]⟩
  · exact ⟨[("ab", ⟨"ab", "t", "c", "txt", 1, none⟩)], "ab", "ab!",
      by decide, by decide⟩

/-- Witness for C10: two concrete ids differing only in stripped
characters share a file path. -/
theorem C10_sanitized_aliasing_witness :
    getPasteFilePath "x-1" = getPasteFilePath "x-1?" :=
  (C10_sanitized_aliasing.1 "x-1" "x-1?" (by decide)).1

/-! ### Claim C1: expiry correctness -/

/-- The record used in the C1 boundary counterexample. -/
def c1Paste : Paste := ⟨"a", "t", "c", "txt", 1, some 5⟩

/-- Counterexample to C1 as stated: a paste stored with `expiresAt = 5` is
still returned by `getPaste` at current time `5`, on both the memory and
file backends, although the claim requires NotFound at any time `≥ 5`:
the source tests `paste.expiresAt < Date.now()` strictly. -/
theorem C1_expiry_boundary_counterexample :
    (getPaste .memory (savePaste .memory ⟨[], [], []⟩ c1Paste 0)
      "a" 5).1 = some c1Paste ∧
    (getPaste .file (savePaste .file ⟨[], [], []⟩ c1Paste 0)
      "a" 5).1 = some c1Paste := by
  decide

/-- C1 as amended: for a paste stored with truthy `expiresAt = t` (so
`t ≠ 0`), the memory and file backends return the record at any time
`≤ t` and return NotFound at any time `> t`, removing the underlying
record on the expired read. (The Redis backend delegates expiry to the
service's whole-second TTL instead of checking client-side.) -/
theorem C1_expiry_correctness (st : StorageState) (p : Paste)
    (t save now : Int) (ht : p.expiresAt = some t) (h0 : t ≠ 0) :
    (now ≤ t →
      (getPaste .memory (savePaste .memory st p save) p.id now).1
        = some p ∧
      (getPaste .file (savePaste .file st p save) p.id now).1
        = some p) ∧
    (t < now →
      (getPaste .memory (savePaste .memory st p save) p.id now).1
        = none ∧
      (getPaste .file (savePaste .file st p save) p.id now).1
        = none ∧
      kvLookup (getPaste .memory (savePaste .memory st p save)
        p.id now).2.mem p.id = none ∧
      kvLookup (getPaste .file (savePaste .file st p save)
        p.id now).2.fs (getPasteFilePath p.id) = none) := by
  constructor
  · intro hle
    have hexp : isExpired p.expiresAt now = false := by
      simp [isExpired, ht]
      omega
    constructor
    · simp only [getPaste, savePaste, memGet, memSet]
      rw [kvLookup_kvSet_self]
      simp [hexp]
    · simp only [getPaste, savePaste, fileGet, fileSet]
      rw [kvLookup_kvSet_self]
      simp [hexp]
  · intro hlt
    have hexp : isExpired p.expiresAt now = true := by
      simp [isExpired, ht, h0]
      omega
    refine ⟨?_, ?_, ?_, ?_⟩
    · simp only [getPaste, savePaste, memGet, memSet]
      rw [kvLookup_kvSet_self]
      simp [hexp]
    · simp only [getPaste, savePaste, fileGet, fileSet]
      rw [kvLookup_kvSet_self]
      simp [hexp]
    · simp only [getPaste, savePaste, memGet, memSet]
      rw [kvLookup_kvSet_self]
      simp [hexp, kvLookup_kvRemove_self]
    · simp only [getPaste, savePaste, fileGet, fileSet]
      rw [kvLookup_kvSet_self]
      simp [hexp, kvLookup_kvRemove_self]

/-- The record used to witness the amended C1. -/
def c1PasteW : Paste := ⟨"w", "t", "c", "txt", 1, some 5⟩

/-- Witness for the amended C1: a concrete store read before and after
the expiry instant. -/
theorem C1_expiry_correctness_witness :
    (getPaste .memory (savePaste .memory ⟨[], [], []⟩ c1PasteW 0)
      c1PasteW.id 3).1 = some c1PasteW ∧
    (getPaste .memory (savePaste .memory ⟨[], [], []⟩ c1PasteW 0)
      c1PasteW.id 9).1 = none :=
  ⟨((C1_expiry_correctness ⟨[], [], []⟩ c1PasteW 5 0 3 rfl
      (by decide)).1 (by decide)).1,
   ((C1_expiry_correctness ⟨[], [], []⟩ c1PasteW 5 0 9 rfl
      (by decide)).2 (by decide)).1⟩

/-! ### Claim C2: identifier safety -/

/-- The record used in the C2 aliasing counterexample. -/
def c2Paste : Paste := ⟨"etcpasswd", "t", "c", "txt", 1, none⟩

/-- Counterexample to C2 as stated: `getPaste("../../etc/passwd")` on the
file backend does not always return NotFound — the traversal id sanitizes
to `etcpasswd`, so in a directory holding a record at that sanitized key
the read returns that record. (No file outside the managed directory is
touched; only the NotFound clause fails.) -/
theorem C2_alias_counterexample :
    sanitizeId "../../etc/passwd" = "etcpasswd" ∧
    (fileGet (fileSet [] c2Paste) "../../etc/passwd" 0).1
      = some c2Paste := by
  decide

/-- C2 as amended: for every raw id — including ids with `../`, path
separators, or null bytes — the file name the File Backend reads, writes,
or deletes consists only of characters in `[A-Za-z0-9_-]` plus the fixed
`.json` extension, so it never contains a path separator or a null byte
and the operation stays inside the managed directory; and `getPaste` on
such an id returns NotFound whenever no record is stored under the
sanitized id. -/
theorem C2_identifier_safety (id : String) :
    (∀ c ∈ (sanitizeId id).data, isAllowedChar c = true) ∧
    (∀ c ∈ (getPasteFilePath id).data,
      c ≠ '/' ∧ c ≠ '\\' ∧ c ≠ Char.ofNat 0) ∧
    (∀ (fs : FS) (now : Int), kvLookup fs (getPasteFilePath id) = none →
      fileGet fs id now = (none, fs)) := by
  have hallowed : ∀ c ∈ (sanitizeId id).data, isAllowedChar c = true := by
    intro c hc
    simp only [sanitizeId] at hc
    exact (List.mem_filter.mp hc).2
  refine ⟨hallowed, ?_, ?_⟩
  · intro c hc
    have hd : (getPasteFilePath id).data
        = (sanitizeId id).data ++ ".json".data := rfl
    rw [hd] at hc
    rcases List.mem_append.mp hc with h | h
    · have ha := hallowed c h
      refine ⟨?_, ?_, ?_⟩ <;> rintro rfl <;> exact absurd ha (by decide)
    · have hjson : (".json").data = ['.', 'j', 's', 'o', 'n'] := rfl
      rw [hjson] at h
      simp only [List.mem_cons, List.not_mem_nil, or_false] at h
      rcases h with rfl | rfl | rfl | rfl | rfl <;>
        exact ⟨by decide, by decide, by decide⟩
  · intro fs now hnone
    simp [fileGet, hnone]

/-- Witness for the amended C2: scenario C in an empty managed directory —
the traversal id reads nothing and reports NotFound. -/
theorem C2_identifier_safety_witness :
    fileGet [] "../../etc/passwd" 0 = (none, []) :=
  (C2_identifier_safety "../../etc/passwd").2.2 [] 0 rfl

/-! ### Claim C6: empty sanitized identifier -/

/-- The record used in the C6 shared-key counterexample. -/
def c6Paste : Paste := ⟨"!!!", "t", "c", "txt", 1, none⟩

/-- Counterexample to C6 as stated: the non-empty id `###` sanitizes to
the empty string, yet the file backend does not treat it as not-found —
saving a paste whose id `!!!` also sanitizes to empty writes the shared
file `.json`, and `getPaste("###")` reads that shared file and returns
the other id's record. -/
theorem C6_shared_key_counterexample :
    sanitizeId "###" = "" ∧ ("###" : String) ≠ "" ∧
    getPasteFilePath "###" = ".json" ∧
    (fileGet (fileSet [] c6Paste) "###" 0).1 = some c6Paste := by
  decide

/-- C6 as amended: every non-empty raw id whose sanitized form is empty is
mapped to the single shared path `.json`; all such ids alias one another
(in particular they behave exactly like the empty id), and `getPaste`
returns NotFound only when that shared file is absent. -/
theorem C6_empty_sanitized_id (id : String) (h : sanitizeId id = "") :
    getPasteFilePath id = ".json" ∧
    (∀ (fs : FS) (now : Int), fileGet fs id now = fileGet fs "" now) ∧
    (∀ (fs : FS) (now : Int), kvLookup fs ".json" = none →
      fileGet fs id now = (none, fs)) := by
  have hp : getPasteFilePath id = ".json" := by
    unfold getPasteFilePath
    rw [h]
    decide
  refine ⟨hp, ?_, ?_⟩
  · intro fs now
    have hq : getPasteFilePath "" = ".json" := rfl
    simp [fileGet, hp, hq]
  · intro fs now hnone
    simp [fileGet, hp, hnone]

/-- Witness for the amended C6: `getPaste("###")` in an empty managed
directory reads nothing and reports NotFound. -/
theorem C6_empty_sanitized_id_witness :
    fileGet [] "###" 0 = (none, []) :=
  (C6_empty_sanitized_id "###" (by decide)).2.2 [] 0 rfl

/-! ### Claim C7: listing -/

/-- A tied record used in the C7 counterexample. -/
def c7PasteA : Paste := ⟨"a", "t", "c", "txt", 5, none⟩

/-- A second record with the same `createdAt`, for the C7 counterexample. -/
def c7PasteB : Paste := ⟨"b", "t", "c", "txt", 5, none⟩

/-- Counterexample to C7 as stated: two live records sharing
`createdAt = 5` make the memory listing `[c7PasteA, c7PasteB]`, which is
not strictly decreasing in `createdAt` — the comparator
`b.createdAt - a.createdAt` only orders non-strictly. -/
theorem C7_strict_order_counterexample :
    ¬ List.Chain' (fun x y : Paste => y.createdAt < x.createdAt)
      (memList [("a", c7PasteA), ("b", c7PasteB)] 0) := by
  have hm : memList [("a", c7PasteA), ("b", c7PasteB)] 0
      = [c7PasteA, c7PasteB] := by decide
  rw [hm]
  simp [List.chain'_cons, List.chain'_singleton, c7PasteA, c7PasteB]

/-- C7 as amended: for the memory and file backends, `getAllPastes`
returns exactly the stored records that are live at call time
(`expiresAt` falsy or `> now`), ordered by `createdAt` descending with
ties permitted; the file scan deletes the expired `.json` records it
parses and skips (but keeps) unparseable files and non-`.json` entries. -/
theorem C7_listing (s : MemStore) (fs : FS) (now : Int) :
    (memList s now).Perm
      ((s.map Prod.snd).filter (fun p => keepAlive p.expiresAt now)) ∧
    List.Chain' pasteOrd (memList s now) ∧
    (fileList fs now).1.Perm (fs.filterMap (fileCollect now)) ∧
    List.Chain' pasteOrd (fileList fs now).1 ∧
    (fileList fs now).2 = fs.filter (fileKeep now) := by
  refine ⟨List.perm_insertionSort _ _,
    List.Pairwise.chain' (List.sorted_insertionSort pasteOrd _),
    ?_,
    List.Pairwise.chain' (List.sorted_insertionSort pasteOrd _),
    listScan_snd fs now⟩
  simp only [fileList, listScan_fst]
  exact List.perm_insertionSort _ _
